import Mathlib

/-!
Verification development for the DutchRentScope crawler.

Shallow embedding of the core pipeline of the repository:
* `model/m_house_detail.py` — descriptor-based field cleaning,
* `store/funda_postgre.py` — SCD-2 snapshot store (`upsert_listing`),
* `platforms/funda/core.py` — listing generator, detail pipeline,
* `platforms/funda/funda_cookie_manager.py` — cookie cache.

Python strings are modelled as `List Char`, Python values as `PyVal`,
Python exceptions as `Except PyErr`.  Machine-level collaborators
(Postgres, the HTTP transport, the XPath extractor) are modelled by
their interfaces, exactly as the code consumes them.
-/

namespace DRS

/-- A Python `str`, modelled as its list of characters. -/
abbrev PyStr := List Char

/-- Coerce a Lean string literal to the `PyStr` model. -/
def S (s : String) : PyStr := s.data

/-- A Python runtime value as it occurs in the crawler's dictionaries:
`None`, `bool`, `int`, `float` (exact rational model of the values the
cleaning code produces), and `str`.  No claim manipulates a list-valued
field, so container values are not needed by the embedding. -/
inductive PyVal where
  | none : PyVal
  | bool (b : Bool) : PyVal
  | int (z : ℤ) : PyVal
  | float (q : ℚ) : PyVal
  | str (s : PyStr) : PyVal
deriving DecidableEq

/-- Python exceptions raised by the embedded code. -/
inductive PyErr where
  | valueError : PyErr
  | typeError : PyErr
  | attributeError : PyErr
deriving DecidableEq

/-- Python truthiness of a value (`if not value: ...`). -/
def pyTruthy : PyVal → Bool
  | .none => false
  | .bool b => b
  | .int z => z ≠ 0
  | .float q => q ≠ 0
  | .str s => s ≠ []

/-- `a.startswith(b)` over character lists (used to embed `str.replace`
and `str.split`, which scan for the leftmost occurrence). -/
def beginsWith : PyStr → PyStr → Bool
  | [], _ => true
  | _ :: _, [] => false
  | a :: as, b :: bs => a = b && beginsWith as bs

theorem beginsWith_length {pat s : PyStr} (h : beginsWith pat s = true) :
    pat.length ≤ s.length := by
  induction pat generalizing s with
  | nil => simp
  | cons a as ih =>
    cases s with
    | nil => simp [beginsWith] at h
    | cons b bs =>
      simp only [beginsWith, Bool.and_eq_true] at h
      simpa [List.length_cons, Nat.succ_le_succ_iff] using ih h.2

/-- Engine of `str.replace`, structurally recursive on a fuel argument
so that concrete instances reduce inside the kernel; `fuel ≥ s.length`
makes the fuel-exhausted branch unreachable, since each step consumes at
least one character of `s`. -/
def strReplaceFuel (old new : PyStr) : ℕ → PyStr → PyStr
  | _, [] => []
  | 0, s => s
  | fuel + 1, c :: rest =>
    if old ≠ [] ∧ beginsWith old (c :: rest) = true then
      new ++ strReplaceFuel old new fuel ((c :: rest).drop old.length)
    else
      c :: strReplaceFuel old new fuel rest

/-- Python `s.replace(old, new)`: replace non-overlapping occurrences of
`old`, scanning left to right.  All call sites in the source use a
non-empty `old`; for `old = []` the model returns `s` unchanged. -/
def strReplace (old new s : PyStr) : PyStr :=
  strReplaceFuel old new s.length s

/-- Engine of `str.split`, fuel-based for kernel reducibility. -/
def strSplitFuel (sep : PyStr) : ℕ → PyStr → List PyStr
  | _, [] => [[]]
  | 0, s => [s]
  | fuel + 1, c :: rest =>
    if sep ≠ [] ∧ beginsWith sep (c :: rest) = true then
      [] :: strSplitFuel sep fuel ((c :: rest).drop sep.length)
    else
      match strSplitFuel sep fuel rest with
      | [] => [[c]]
      | t :: ts => (c :: t) :: ts

/-- Python `s.split(sep)` with a non-empty separator: the list of
fragments between non-overlapping leftmost occurrences of `sep`.
The result is always non-empty; `(s.split sep)[0]` is the text before
the first occurrence, which is the only component the source reads. -/
def strSplit (sep s : PyStr) : List PyStr :=
  strSplitFuel sep s.length s

/-- The whitespace set stripped by Python's `str.strip()` (the ASCII
subset, which covers every string the cleaning pipelines receive). -/
def pySpace (c : Char) : Bool :=
  c = ' ' || c = '\t' || c = '\n' || c = '\x0d' || c = '\x0b' || c = '\x0c'

/-- Python `s.strip()`. -/
def strStrip (s : PyStr) : PyStr :=
  ((s.dropWhile pySpace).reverse.dropWhile pySpace).reverse

/-- Decimal digit value. -/
def digitVal (c : Char) : Option ℕ :=
  if '0' ≤ c ∧ c ≤ '9' then some (c.toNat - '0'.toNat) else Option.none

def isDigitCh (c : Char) : Bool := ('0' ≤ c && c ≤ '9')

def digitsToNat (ds : List Char) : ℕ :=
  ds.foldl (fun a c => a * 10 + (c.toNat - '0'.toNat)) 0

/-- Python `float(s)` on the decimal forms the cleaning code produces:
optional surrounding whitespace, optional sign, digits with an optional
fractional part and optional decimal exponent.  `Option.none` models
`ValueError`.  (The exotic accepted spellings `inf`/`nan` and digit
group underscores are outside the model; no claim involves them.) -/
def pyFloat? (s : PyStr) : Option ℚ :=
  let t := strStrip s
  let (neg, t) : Bool × PyStr :=
    match t with
    | '-' :: r => (true, r)
    | '+' :: r => (false, r)
    | r => (false, r)
  let intPart := t.takeWhile isDigitCh
  let rest := t.dropWhile isDigitCh
  let (fracPart, rest) : List Char × PyStr :=
    match rest with
    | '.' :: r => (r.takeWhile isDigitCh, r.dropWhile isDigitCh)
    | r => ([], r)
  if intPart = [] ∧ fracPart = [] then Option.none
  else
    -- value = mantNum / mantDen, kept as integer data so that concrete
    -- instances evaluate inside the kernel (`Rat.add`/`Rat.mul` do not).
    let mantNum : ℕ := digitsToNat (intPart ++ fracPart)
    let mantDen : ℕ := 10 ^ fracPart.length
    let signed : ℕ → ℤ := fun n => if neg then -(n : ℤ) else (n : ℤ)
    match rest with
    | [] => some (mkRat (signed mantNum) mantDen)
    | e :: r =>
      if e = 'e' ∨ e = 'E' then
        let (eneg, r) : Bool × PyStr :=
          match r with
          | '-' :: r2 => (true, r2)
          | '+' :: r2 => (false, r2)
          | r2 => (false, r2)
        let eDigits := r.takeWhile isDigitCh
        if eDigits = [] ∨ r.dropWhile isDigitCh ≠ [] then Option.none
        else
          let ev := digitsToNat eDigits
          if eneg then some (mkRat (signed mantNum) (mantDen * 10 ^ ev))
          else some (mkRat (signed (mantNum * 10 ^ ev)) mantDen)
      else Option.none

/-- Python `float(x)` applied to an arbitrary value (the
`self.field_type(value)` cast in `ItemDescriptor.__get__`). -/
def pyFloatCast : PyVal → Except PyErr PyVal
  | .none => .error .typeError
  | .bool b => .ok (.float (if b then 1 else 0))
  | .int z => .ok (.float (z : ℚ))
  | .float q => .ok (.float q)
  | .str s =>
    match pyFloat? s with
    | some q => .ok (.float q)
    | Option.none => .error .valueError

end DRS

namespace DRS

/-! ## `model/m_house_detail.py` — descriptor-based field cleaning

`ItemDescriptor.__get__` reads the stored raw value (`None` when the
attribute was never set), runs the field's pipeline function, casts via
`field_type`, and maps missing values and `ValueError`/`TypeError` to
the type's zero (`0` for `int`/`float`, `""` otherwise). -/

instance {ε α : Type} [DecidableEq ε] [DecidableEq α] : DecidableEq (Except ε α) := fun a b =>
  match a, b with
  | .ok x, .ok y => if h : x = y then .isTrue (by rw [h]) else .isFalse (by simp [h])
  | .error x, .error y => if h : x = y then .isTrue (by rw [h]) else .isFalse (by simp [h])
  | .ok _, .error _ => .isFalse (by simp)
  | .error _, .ok _ => .isFalse (by simp)

/-- `ItemDescriptor.__get__` for a `float`-typed field.  `stored` is
`instance.__dict__.get(private_name, None)`: `Option.none` models an
attribute that was never set, `some v` a stored Python value `v`
(possibly `None` itself, which the `.get` default makes equivalent). -/
def itemDescriptorGetFloat (pipeline : PyVal → Except PyErr PyVal)
    (stored : Option PyVal) : Except PyErr PyVal :=
  match stored.getD PyVal.none with
  | PyVal.none => .ok (.int 0)
  | v =>
    match (pipeline v).bind pyFloatCast with
    | .ok r => .ok r
    | .error .valueError => .ok (.int 0)
    | .error .typeError => .ok (.int 0)
    | .error e => .error e

/-- The string-cleaning chain of `HouseDetails.price`:
`value.replace("€","").replace(".","").replace(",","")
      .split("/")[0].split("p")[0].strip()`. -/
def priceCleaned (s : PyStr) : PyStr :=
  let cleaned := strReplace (S (r",")) [] (strReplace (S (r".")) [] (strReplace (S (r"€")) [] s))
  strStrip ((strSplit (S (r"p")) ((strSplit (S (r"/")) cleaned).headD [])).headD [])

/-- Pipeline function of `HouseDetails.price`.  A truthy non-`str`
value raises `AttributeError` at `.replace`, which the pipeline's own
`except (ValueError, AttributeError)` catches, returning `0`. -/
def pricePipeline (value : PyVal) : Except PyErr PyVal :=
  if ¬ pyTruthy value then .ok (.int 0)
  else
    match value with
    | .str s =>
      match pyFloat? (priceCleaned s) with
      | some q => .ok (.float q)
      | Option.none => .ok (.int 0)
    | _ => .ok (.int 0)

/-- The string-cleaning chain of `HouseDetails.living_area`:
`value.replace("m²", "").strip()`. -/
def livingAreaCleaned (s : PyStr) : PyStr :=
  strStrip (strReplace (S (r"m²")) [] s)

/-- Pipeline function of `HouseDetails.living_area` (and, identically,
`external_area`). -/
def livingAreaPipeline (value : PyVal) : Except PyErr PyVal :=
  if ¬ pyTruthy value then .ok (.int 0)
  else
    match value with
    | .str s =>
      match pyFloat? (livingAreaCleaned s) with
      | some q => .ok (.float q)
      | Option.none => .ok (.int 0)
    | _ => .ok (.int 0)

/-- `house.price` attribute access: descriptor get composed with the
price pipeline. -/
def housePrice (stored : Option PyVal) : Except PyErr PyVal :=
  itemDescriptorGetFloat pricePipeline stored

/-- `house.living_area` attribute access. -/
def houseLivingArea (stored : Option PyVal) : Except PyErr PyVal :=
  itemDescriptorGetFloat livingAreaPipeline stored

example : housePrice (some (.str (S (r"€ 3,250 /maand")))) = .ok (.float 3250) := by decide
example : houseLivingArea (some (.str (S (r"118 m²")))) = .ok (.float 118) := by decide
example : housePrice (some (.str (S (r"abc")))) = .ok (.float 0) := by decide
example : housePrice (some (.str [])) = .ok (.float 0) := by decide
example : housePrice Option.none = .ok (.int 0) := by decide
example : housePrice (some .none) = .ok (.int 0) := by decide

end DRS

namespace DRS

/-! ## `platforms/funda/funda_cookie_manager.py` — FundaCookieManager

The manager holds one cached credential (`self._cookie_data`, a dict
persisted as JSON).  Time is `time.time()`, modelled as an integer
parameter `now`; the external Playwright transport that produces a
fresh credential is modelled as the parameter `newCookie`. -/

/-- The persisted cookie dict
`{cookie_string, timestamp, failure_count, last_failure_timestamp}`.
Fields are total: the `.get(key, default)` fallbacks in the source only
matter for hand-edited files. -/
structure CookieData where
  cookie_string : PyStr
  timestamp : ℤ
  failure_count : ℕ
  last_failure_timestamp : Option ℤ
deriving DecidableEq

/-- In-memory manager state: configured lifetime (constructor default
7200 s) and the cached credential slot. -/
structure CookieManagerState where
  cookie_lifetime : ℤ
  cookie_data : Option CookieData
deriving DecidableEq

/-- `FundaCookieManager._is_cookie_valid`, with
`maxFailureCount = config.MAX_COOKIE_FAILURE_COUNT`. -/
def isCookieValid (maxFailureCount : ℕ) (now : ℤ)
    (st : CookieManagerState) : Bool :=
  match st.cookie_data with
  | Option.none => false
  | some d =>
    if now - d.timestamp ≥ st.cookie_lifetime then false
    else if d.failure_count ≥ maxFailureCount then false
    else true

/-- Result of a `get_cookie` call: the returned credential string, the
state afterwards, whether the external transport was used
(`_fetch_new_cookie`), and whether `_save_cookie` wrote the durable
file. -/
structure GetCookieResult where
  returned : PyStr
  state : CookieManagerState
  fetchedNew : Bool
  persisted : Bool
deriving DecidableEq

/-- `FundaCookieManager.get_cookie(force_refresh)`. -/
def getCookie (maxFailureCount : ℕ) (now : ℤ) (newCookie : PyStr)
    (force_refresh : Bool) (st : CookieManagerState) : GetCookieResult :=
  if ¬ force_refresh ∧ isCookieValid maxFailureCount now st = true then
    { returned :=
        (match st.cookie_data with
        | some d => d.cookie_string
        | Option.none => []),   -- unreachable: validity implies a cached dict
      state := st,
      fetchedNew := false,
      persisted := false }
  else
    { returned := newCookie,
      state := { st with cookie_data := some ⟨newCookie, now, 0, Option.none⟩ },
      fetchedNew := true,
      persisted := true }

/-- `FundaCookieManager.report_failure`: increments the failure counter
and stamps the failure time without fetching; second component records
whether the file was persisted. -/
def reportFailure (now : ℤ) (st : CookieManagerState) :
    CookieManagerState × Bool :=
  match st.cookie_data with
  | Option.none => (st, false)
  | some d =>
    ({ st with cookie_data := some { d with
        failure_count := d.failure_count + 1,
        last_failure_timestamp := some now } }, true)

example :
    getCookie 3 100 (S (r"new")) false
      ⟨7200, some ⟨S (r"old"), 50, 1, Option.none⟩⟩ =
    ⟨S (r"old"), ⟨7200, some ⟨S (r"old"), 50, 1, Option.none⟩⟩, false, false⟩ := by
  decide

example :
    getCookie 3 8000 (S (r"new")) false
      ⟨7200, some ⟨S (r"old"), 50, 1, Option.none⟩⟩ =
    ⟨S (r"new"), ⟨7200, some ⟨S (r"new"), 8000, 0, Option.none⟩⟩, true, true⟩ := by
  decide

end DRS

namespace DRS

/-! ## `platforms/funda/core.py` — `fetch_page` and
`get_house_info_generator`

A parsed search-result listing is opaque to the pagination logic; only
its numeric id is ever inspected (by the dedup loop), so the embedding
carries just that. -/

/-- A parsed `Property` as the orchestration code consumes it. -/
structure Listing where
  id : ℤ
deriving DecidableEq

/-- Outcome of one
`get_single_page_house_info` + `parse_single_page_house_info` call, as
classified by `exception.py`: a parsed property list, or one of the
typed failures `PaginationLimitError` / `EmptyResponseError`, or an
unclassified exception. -/
inductive PageFetchOutcome where
  | ok (props : List Listing) : PageFetchOutcome
  | paginationLimitError : PageFetchOutcome
  | emptyResponseError : PageFetchOutcome
  | otherError : PageFetchOutcome
deriving DecidableEq

/-- `FundaCrawler.fetch_page`: returns the parsed properties, and an
empty list on zero properties or on any of the three caught failure
classes (`PaginationLimitError` is caught and logged,
"Return empty list to stop pagination gracefully"). -/
def fetch_page (outcome : PageFetchOutcome) : List Listing :=
  match outcome with
  | .ok props => if props ≠ [] then props else []
  | .paginationLimitError => []
  | .emptyResponseError => []
  | .otherError => []

/-- The parsed first page: `total_value` drives the page-count
computation, `properties` is the first yield. -/
structure FirstPageResult where
  total_value : ℕ
  properties : List Listing
deriving DecidableEq

/-- Trace of one run of the async generator: the page numbers requested
from the client, in request order, and the property batches yielded. -/
structure GeneratorRun where
  fetchedPages : List ℕ
  yielded : List (List Listing)
deriving DecidableEq

/-- `FundaCrawler.get_house_info_generator`.  `startPage`/`endPage` are
`config.START_PAGE`/`config.END_PAGE`; the first page is fetched
directly through the client (an exception ends the generator before any
yield), then `total_pages = math.ceil(total_value / 15)` bounds the
loop `range(start_page + 1, end_page)` whose body calls `fetch_page`
(page number `n` is requested with `from_ = (n - 1) * 15`). -/
def get_house_info_generator (startPage : ℕ) (endPage : Option ℕ)
    (firstPage : Except Unit FirstPageResult)
    (fetcher : ℕ → PageFetchOutcome) : GeneratorRun :=
  match firstPage with
  | .error _ => { fetchedPages := [startPage], yielded := [] }
  | .ok fp =>
    let totalPages := (fp.total_value + 14) / 15
    let endPageN :=
      match endPage with
      | Option.none => totalPages + 1
      | some e => min e (totalPages + 1)
    let laterPages := List.range' (startPage + 1) (endPageN - (startPage + 1))
    { fetchedPages := startPage :: laterPages,
      yielded := fp.properties :: laterPages.map (fun n => fetch_page (fetcher n)) }

example :
    get_house_info_generator 1 Option.none
      (.ok ⟨20, List.replicate 15 ⟨7⟩⟩)
      (fun n => if n = 2 then .ok (List.replicate 5 ⟨8⟩) else .otherError) =
    ⟨[1, 2], [List.replicate 15 ⟨7⟩, List.replicate 5 ⟨8⟩]⟩ := by decide

/-! ## `platforms/funda/core.py` — `_run_detail_pipeline` dedup loop

Per page, the loop over `page_listings` skips (logs a duplicate
warning) every property whose id is already in
`self.processed_listing_ids`, registers each new id, and collects the
fresh ids into `detail_references`, which the page then hands to
`_get_and_store_detailed_info`. -/

/-- The per-page reference-building loop: given the current
`processed_listing_ids` and a page's property ids, returns the updated
set and the references handed to the detail stage, in feed order. -/
def processPage (processed : List ℤ) : List ℤ → (List ℤ × List ℤ)
  | [] => (processed, [])
  | p :: rest =>
    if p ∈ processed then processPage processed rest
    else
      let out := processPage (p :: processed) rest
      (out.1, p :: out.2)

/-- `_run_detail_pipeline` restricted to its dedup/handoff structure:
folds `processPage` over the pages the listing generator yields and
returns, per page, the batch of references handed to
`_get_and_store_detailed_info`. -/
def runDetailPipeline (processed : List ℤ) : List (List ℤ) → List (List ℤ)
  | [] => []
  | page :: rest =>
    let out := processPage processed page
    out.2 :: runDetailPipeline out.1 rest

example : runDetailPipeline [] [[1, 2, 1], [2, 3]] = [[1, 2], [3]] := by decide

theorem processPage_spec (page : List ℤ) (processed : List ℤ) :
    (∀ x ∈ processed, x ∈ (processPage processed page).1)
    ∧ (processPage processed page).2.Nodup
    ∧ (∀ x ∈ (processPage processed page).2, x ∉ processed)
    ∧ (∀ x ∈ (processPage processed page).2, x ∈ (processPage processed page).1)
    ∧ (∀ x ∈ (processPage processed page).2, x ∈ page) := by
  induction page generalizing processed with
  | nil => simp [processPage]
  | cons p rest ih =>
    by_cases hp : p ∈ processed
    · have h := ih processed
      simp only [processPage, if_pos hp]
      refine ⟨h.1, h.2.1, h.2.2.1, h.2.2.2.1, ?_⟩
      intro x hx
      exact List.mem_cons_of_mem _ (h.2.2.2.2 x hx)
    · have h := ih (p :: processed)
      simp only [processPage, if_neg hp]
      refine ⟨?_, ?_, ?_, ?_, ?_⟩
      · intro x hx
        exact h.1 x (List.mem_cons_of_mem _ hx)
      · refine List.nodup_cons.mpr ⟨fun hmem => ?_, h.2.1⟩
        exact (h.2.2.1 p hmem) (List.mem_cons_self p processed)
      · intro x hx
        rcases List.mem_cons.mp hx with rfl | hx2
        · exact hp
        · intro hxp
          exact (h.2.2.1 x hx2) (List.mem_cons_of_mem _ hxp)
      · intro x hx
        rcases List.mem_cons.mp hx with rfl | hx2
        · exact h.1 x (List.mem_cons_self x processed)
        · exact h.2.2.2.1 x hx2
      · intro x hx
        rcases List.mem_cons.mp hx with rfl | hx2
        · exact List.mem_cons_self x rest
        · exact List.mem_cons_of_mem _ (h.2.2.2.2 x hx2)

theorem runDetailPipeline_spec (pages : List (List ℤ)) (processed : List ℤ) :
    ((runDetailPipeline processed pages).flatten).Nodup
    ∧ (∀ x ∈ (runDetailPipeline processed pages).flatten, x ∉ processed)
    ∧ (∀ x ∈ (runDetailPipeline processed pages).flatten, x ∈ pages.flatten) := by
  induction pages generalizing processed with
  | nil => simp [runDetailPipeline]
  | cons page rest ih =>
    have hpage := processPage_spec page processed
    have hrest := ih (processPage processed page).1
    simp only [runDetailPipeline, List.flatten, List.mem_append]
    constructor
    · refine List.Nodup.append hpage.2.1 hrest.1 ?_
      intro x hx1 hx2
      exact (hrest.2.1 x hx2) (hpage.2.2.2.1 x hx1)
    · constructor
      · intro x hx
        rcases hx with hx1 | hx2
        · exact hpage.2.2.1 x hx1
        · intro hxp
          exact (hrest.2.1 x hx2) (hpage.1 x hxp)
      · intro x hx
        rcases hx with hx1 | hx2
        · exact Or.inl (hpage.2.2.2.2 x hx1)
        · exact Or.inr (hrest.2.2 x hx2)

end DRS

namespace DRS

/-! ## `platforms/funda/core.py` — `_fetch_and_parse_detail` and
`_fetch_parse_and_store_detail`

The extractor (`help.py`, an external XPath-profile collaborator) is a
parameter `extract`; its result is the raw attribute dict of a
`HouseDetails` instance.  The Playwright transport result is the
parameter `html` (`None` models a failed `get_house_detail_info`). -/

/-- `"needle in haystack"` for Python strings. -/
def containsSub (needle : PyStr) : PyStr → Bool
  | [] => beginsWith needle []
  | c :: rest => beginsWith needle (c :: rest) || containsSub needle rest

/-- Python `s.split()` (no separator): whitespace-run split, empty
fragments dropped. -/
def strSplitWs (s : PyStr) : List PyStr :=
  (s.foldr
    (fun c acc =>
      if pySpace c then [] :: acc
      else
        match acc with
        | [] => [[c]]
        | t :: ts => (c :: t) :: ts)
    []).filter (· ≠ [])

/-- `" ".join(xs)`. -/
def joinSpace (xs : List PyStr) : PyStr := List.intercalate [' '] xs

def natRepr (n : ℕ) : PyStr := Nat.toDigits 10 n

def intRepr (z : ℤ) : PyStr :=
  if z < 0 then '-' :: natRepr z.natAbs else natRepr z.natAbs

/-- Python `str(x)` (the `field_type` cast of `str`-typed descriptors).
`str()` of a float prints the canonical fraction here; no claim-relevant
path ever casts a non-`str` value. -/
def pyStrCast : PyVal → Except PyErr PyVal
  | .none => .ok (.str (S (r"None")))
  | .bool b => .ok (.str (if b then S (r"True") else S (r"False")))
  | .int z => .ok (.str (intRepr z))
  | .float q => .ok (.str (intRepr q.num ++ ('/' :: natRepr q.den)))
  | .str s => .ok (.str s)

/-- `ItemDescriptor.__get__` for a `str`-typed field: missing value and
`ValueError`/`TypeError` map to `""`; other exceptions raised by the
pipeline (e.g. `AttributeError` from `.split()` on a non-`str`)
propagate. -/
def itemDescriptorGetStr (pipeline : PyVal → Except PyErr PyVal)
    (stored : Option PyVal) : Except PyErr PyVal :=
  match stored.getD PyVal.none with
  | PyVal.none => .ok (.str [])
  | v =>
    match (pipeline v).bind pyStrCast with
    | .ok r => .ok r
    | .error .valueError => .ok (.str [])
    | .error .typeError => .ok (.str [])
    | .error e => .error e

/-- Pipeline of `HouseDetails.description`: `" ".join(value.split())`;
no internal `try`, so a non-`str` raises `AttributeError`. -/
def descriptionPipeline (value : PyVal) : Except PyErr PyVal :=
  match value with
  | .str s => .ok (.str (joinSpace (strSplitWs s)))
  | _ => .error .attributeError

/-- The raw attribute dict (`instance.__dict__`) of the `HouseDetails`
record the extractor instantiates: only `_price` and `_description` are
read or written by the orchestration code, so only those slots are
carried.  `Option.none` models an attribute never set, `some .none` an
attribute set to Python `None` (an XPath miss). -/
structure HouseRec where
  price_raw : Option PyVal
  description_raw : Option PyVal
deriving DecidableEq

/-- `house_info.description` attribute access. -/
def houseDescription (h : HouseRec) : Except PyErr PyVal :=
  itemDescriptorGetStr descriptionPipeline h.description_raw

/-- The captcha/interstitial marker string checked against the body. -/
def captchaMarker : PyStr := S (r"Je bent bijna op de pagina die je zoekt")

/-- The run-level counters of `FundaCrawler` touched by the detail
stage. -/
structure Counters where
  ip_block_count : ℕ
  parsing_failures : ℕ
  error_html_saved : ℕ
  cookie_update_attempts : ℕ
deriving DecidableEq

/-- Value returned by `_fetch_and_parse_detail`.  `nonePair` is the
literal `return None, None` on empty HTML: a 2-tuple, which is *truthy*
in the caller's `if house_info:` test. -/
inductive ParseOutcome where
  | detail (h : HouseRec) : ParseOutcome
  | nothing : ParseOutcome
  | nonePair : ParseOutcome
deriving DecidableEq

/-- The fatal halt
`raise Exception("Cookie update limit reached. Halting crawler.")`
(raised inside the `except IPBlockError` handler, hence not caught by
the following `except Exception` clause). -/
inductive FatalError where
  | cookieUpdateLimitReached : FatalError
deriving DecidableEq

/-- One `_fetch_and_parse_detail` call: outcome, updated counters, and
whether `cookie_manager.report_failure` / a forced
`get_cookie(force_refresh=True)` were invoked. -/
structure FetchParseResult where
  outcome : ParseOutcome
  counters : Counters
  failureReported : Bool
  cookieRefreshed : Bool
deriving DecidableEq

/-- `FundaCrawler._fetch_and_parse_detail`, with
`limit = config.MAX_COOKIE_UPDATE_LIMIT`. -/
def fetchAndParseDetail (limit : ℕ) (extract : PyStr → Option HouseRec)
    (html : Option PyStr) (st : Counters) :
    Except FatalError FetchParseResult :=
  match html with
  | Option.none => .ok ⟨.nonePair, st, false, false⟩
  | some content =>
    if content = [] then .ok ⟨.nonePair, st, false, false⟩
    else if containsSub captchaMarker content then
      -- `raise IPBlockError`, caught by `except IPBlockError`:
      let st1 := { st with ip_block_count := st.ip_block_count + 1 }
      if st1.cookie_update_attempts < limit then
        .ok ⟨.nothing,
             { st1 with cookie_update_attempts := st1.cookie_update_attempts + 1 },
             true, true⟩
      else .error .cookieUpdateLimitReached
    else
      match extract content with
      | Option.none =>
        -- parsing returned None: count the failure, archive the HTML
        .ok ⟨.nothing,
             { st with parsing_failures := st.parsing_failures + 1,
                       error_html_saved := st.error_html_saved + 1 },
             false, false⟩
      | some h =>
        -- essential_fields = ["price"]:
        -- is_partial_failure = any(getattr(house_info, f) is None ...)
        match housePrice h.price_raw with
        | .error _ =>
          -- an exception here falls to `except Exception`: archive, None
          .ok ⟨.nothing,
               { st with error_html_saved := st.error_html_saved + 1 },
               false, false⟩
        | .ok priceAttr =>
          if priceAttr = PyVal.none then
            -- partial-failure branch: archive, prefix the description
            let st1 := { st with error_html_saved := st.error_html_saved + 1 }
            match houseDescription h with
            | .ok d =>
              let original := if pyTruthy d then d else .str []
              let newDescr : PyVal :=
                match original with
                | .str ds => .str (S (r"[PARTIAL_PARSE] ") ++ ds)
                | v => v   -- unreachable: the str descriptor yields str
              .ok ⟨.detail { h with description_raw := some newDescr },
                   st1, false, false⟩
            | .error _ =>
              -- falls to `except Exception`: archive again, return None
              .ok ⟨.nothing,
                   { st1 with error_html_saved := st1.error_html_saved + 1 },
                   false, false⟩
          else .ok ⟨.detail h, st, false, false⟩

/-- What `_fetch_parse_and_store_detail` does with the outcome when a
store is configured: a merged record for a parsed detail, a tombstone
(`status = "[PARSE_FAILED]"`) for `None`, and a caught
`AttributeError` (nothing stored) for the truthy `(None, None)` tuple,
whose `.to_dict_items()` call fails. -/
inductive StoreAction where
  | storedSnapshot (h : HouseRec) : StoreAction
  | storedTombstone : StoreAction
  | storeFailed : StoreAction
deriving DecidableEq

def storeStep : ParseOutcome → StoreAction
  | .detail h => .storedSnapshot h
  | .nothing => .storedTombstone
  | .nonePair => .storeFailed

example :
    fetchAndParseDetail 5 (fun _ => some ⟨some PyVal.none, some (.str (S (r"nice flat")))⟩)
      (some (S (r"<html>x</html>"))) ⟨0, 0, 0, 0⟩ =
    .ok ⟨.detail ⟨some PyVal.none, some (.str (S (r"nice flat")))⟩, ⟨0, 0, 0, 0⟩, false, false⟩ := by
  decide

example :
    fetchAndParseDetail 5 (fun _ => Option.none) (some captchaMarker) ⟨0, 0, 0, 2⟩ =
    .ok ⟨.nothing, ⟨1, 0, 0, 3⟩, true, true⟩ := by decide

example :
    fetchAndParseDetail 5 (fun _ => Option.none) (some captchaMarker) ⟨0, 0, 0, 5⟩ =
    .error .cookieUpdateLimitReached := by decide

end DRS

namespace DRS

/-! ## Byte codecs used by `upsert_listing`'s description compression

`upsert_listing` stores
`base64.b64encode(zlib.compress(description.encode("utf-8"))).decode("ascii")`.
Bytes are modelled as natural numbers `< 256`. -/

/-- UTF-8 encoding of one Unicode scalar value (`str.encode("utf-8")`
per code point). -/
def utf8EncodeChar (c : Char) : List ℕ :=
  let n := c.toNat
  if n < 128 then [n]
  else if n < 2048 then [192 + n / 64, 128 + n % 64]
  else if n < 65536 then [224 + n / 4096, 128 + (n / 64) % 64, 128 + n % 64]
  else [240 + n / 262144, 128 + (n / 4096) % 64, 128 + (n / 64) % 64, 128 + n % 64]

/-- `s.encode("utf-8")`. -/
def utf8Encode (s : PyStr) : List ℕ := (s.map utf8EncodeChar).flatten

theorem utf8EncodeChar_lt (c : Char) : ∀ x ∈ utf8EncodeChar c, x < 256 := by
  have hv := c.valid
  unfold UInt32.isValidChar Nat.isValidChar at hv
  have h2 : c.toNat = c.val.toNat := rfl
  have hb : c.toNat < 1114112 := by omega
  intro x hx
  simp only [utf8EncodeChar] at hx
  split at hx
  · simp at hx; omega
  · split at hx
    · simp at hx
      rcases hx with rfl | rfl <;> omega
    · split at hx
      · simp at hx
        rcases hx with rfl | rfl | rfl <;> omega
      · simp at hx
        rcases hx with rfl | rfl | rfl | rfl <;> omega

theorem utf8Encode_lt (s : PyStr) : ∀ x ∈ utf8Encode s, x < 256 := by
  intro x hx
  unfold utf8Encode at hx
  rcases List.mem_flatten.mp hx with ⟨l, hl, hxl⟩
  rcases List.mem_map.mp hl with ⟨c, _, rfl⟩
  exact utf8EncodeChar_lt c x hxl

/-- Modelled from the library contract of `zlib.compress`
(RFC 1950/1951), which is outside the repository: a lossless byte
codec.  The model emits the 2-byte zlib header followed by DEFLATE
*stored* blocks — a final-block flag byte, a 2-byte little-endian
length, then the raw bytes, chunked at the format's 65535-byte stored
block limit.  The Adler-32 trailer is omitted; no claim inspects
checksum bytes, only losslessness.  Fuel-based recursion keeps concrete
instances kernel-reducible; `fuel ≥ b.length` makes the fuel-exhausted
branch unreachable. -/
def storedBlocksFuel : ℕ → List ℕ → List ℕ
  | 0, b => [1, b.length % 256, b.length / 256] ++ b
  | fuel + 1, b =>
    if b.length ≤ 65535 then [1, b.length % 256, b.length / 256] ++ b
    else [0, 255, 255] ++ b.take 65535 ++ storedBlocksFuel fuel (b.drop 65535)

def zlibCompress (b : List ℕ) : List ℕ :=
  120 :: 156 :: storedBlocksFuel b.length b

/-- Parser for the stored-block stream: the exact inverse of
`storedBlocksFuel`. -/
def parseStoredFuel : ℕ → List ℕ → Option (List ℕ)
  | _, 1 :: lo :: hi :: rest =>
    if rest.length = lo + 256 * hi then some rest else Option.none
  | fuel + 1, 0 :: lo :: hi :: rest =>
    let n := lo + 256 * hi
    if n ≤ rest.length then
      match parseStoredFuel fuel (rest.drop n) with
      | some tail => some (rest.take n ++ tail)
      | Option.none => Option.none
    else Option.none
  | _, _ => Option.none

/-- Modelled from the library contract of `zlib.decompress`: the exact
parser of `zlibCompress`'s output. -/
def zlibDecompress (b : List ℕ) : Option (List ℕ) :=
  match b with
  | 120 :: 156 :: rest => parseStoredFuel rest.length rest
  | _ => Option.none

theorem storedBlocksFuel_length (f1 : ℕ) (b : List ℕ) :
    b.length + 3 ≤ (storedBlocksFuel f1 b).length := by
  induction f1 generalizing b with
  | zero => simp [storedBlocksFuel]
  | succ f ih =>
    by_cases h : b.length ≤ 65535
    · simp [storedBlocksFuel, if_pos h]
    · have := ih (b.drop 65535)
      simp only [storedBlocksFuel, if_neg h, List.length_append,
        List.length_cons, List.length_take, List.length_drop] at *
      omega

theorem parseStored_storedBlocks (f1 : ℕ) :
    ∀ (b : List ℕ) (f2 : ℕ), b.length ≤ 65535 * f1 + 65535 → f1 + 1 ≤ f2 →
    parseStoredFuel f2 (storedBlocksFuel f1 b) = some b := by
  induction f1 with
  | zero =>
    intro b f2 hb hf
    have hlen : b.length % 256 + 256 * (b.length / 256) = b.length := by omega
    simp only [storedBlocksFuel]
    cases f2 with
    | zero => omega
    | succ f =>
      simp only [List.cons_append, List.nil_append, parseStoredFuel, hlen]
      simp
  | succ f ih =>
    intro b f2 hb hf
    by_cases h : b.length ≤ 65535
    · have hlen : b.length % 256 + 256 * (b.length / 256) = b.length := by omega
      simp only [storedBlocksFuel, if_pos h]
      cases f2 with
      | zero => omega
      | succ f2p =>
        simp only [List.cons_append, List.nil_append, parseStoredFuel, hlen]
        simp
    · simp only [storedBlocksFuel, if_neg h]
      cases f2 with
      | zero => omega
      | succ f2p =>
        have htk : (b.take 65535).length = 65535 := by
          simp [List.length_take]; omega
        have hlen255 : (255 : ℕ) + 256 * 255 = 65535 := by norm_num
        simp only [List.cons_append, List.nil_append, parseStoredFuel,
          List.append_eq]
        have hrest :
            65535 ≤ (b.take 65535 ++ storedBlocksFuel f (b.drop 65535)).length := by
          simp only [List.length_append, htk]; omega
        rw [if_pos (by omega : (255 : ℕ) + 256 * 255 ≤ (b.take 65535 ++ storedBlocksFuel f (b.drop 65535)).length)]
        have hdrop :
            (b.take 65535 ++ storedBlocksFuel f (b.drop 65535)).drop (255 + 256 * 255) =
            storedBlocksFuel f (b.drop 65535) := by
          rw [hlen255]; exact List.drop_left' htk
        have htake :
            (b.take 65535 ++ storedBlocksFuel f (b.drop 65535)).take (255 + 256 * 255) =
            b.take 65535 := by
          rw [hlen255]; exact List.take_left' htk
        rw [hdrop, htake,
          ih (b.drop 65535) f2p (by simp [List.length_drop]; omega) (by omega)]
        simp

/-- Losslessness of the modelled `zlib` codec. -/
theorem zlibDecompress_zlibCompress (b : List ℕ) :
    zlibDecompress (zlibCompress b) = some b := by
  unfold zlibCompress zlibDecompress
  exact parseStored_storedBlocks b.length b _ (by nlinarith)
    (by have := storedBlocksFuel_length b.length b; omega)

end DRS

namespace DRS

/-- The base64 alphabet (RFC 4648, as used by `base64.b64encode`). -/
def b64Char (n : ℕ) : Char :=
  if n < 26 then Char.ofNat (65 + n)
  else if n < 52 then Char.ofNat (97 + (n - 26))
  else if n < 62 then Char.ofNat (48 + (n - 52))
  else if n = 62 then '+'
  else '/'

/-- `base64.b64encode` (then `.decode("ascii")`): 3 input bytes per 4
output characters, `=`-padded. -/
def base64Encode : List ℕ → List Char
  | [] => []
  | [b1] => [b64Char (b1 / 4), b64Char (b1 % 4 * 16), '=', '=']
  | [b1, b2] =>
    [b64Char (b1 / 4), b64Char (b1 % 4 * 16 + b2 / 16), b64Char (b2 % 16 * 4), '=']
  | b1 :: b2 :: b3 :: rest =>
    b64Char (b1 / 4) :: b64Char (b1 % 4 * 16 + b2 / 16) ::
    b64Char (b2 % 16 * 4 + b3 / 64) :: b64Char (b3 % 64) :: base64Encode rest

/-- Value of one base64 alphabet character. -/
def b64Val (c : Char) : Option ℕ :=
  if 'A' ≤ c ∧ c ≤ 'Z' then some (c.toNat - 65)
  else if 'a' ≤ c ∧ c ≤ 'z' then some (c.toNat - 97 + 26)
  else if '0' ≤ c ∧ c ≤ '9' then some (c.toNat - 48 + 52)
  else if c = '+' then some 62
  else if c = '/' then some 63
  else Option.none

/-- `base64.b64decode`: the inverse of `base64Encode`.  A quadruple
ending in `=` / `==` (legal only as the final group) decodes to two
bytes / one byte. -/
def base64Decode : List Char → Option (List ℕ)
  | [] => some []
  | c1 :: c2 :: c3 :: c4 :: rest =>
    (match b64Val c1, b64Val c2 with
    | some v1, some v2 =>
      if c3 = '=' then
        if c4 = '=' ∧ rest = [] then some [v1 * 4 + v2 / 16] else Option.none
      else
        (match b64Val c3 with
        | some v3 =>
          if c4 = '=' then
            if rest = [] then some [v1 * 4 + v2 / 16, v2 % 16 * 16 + v3 / 4]
            else Option.none
          else
            (match b64Val c4, base64Decode rest with
            | some v4, some tail =>
              some ((v1 * 4 + v2 / 16) :: (v2 % 16 * 16 + v3 / 4) ::
                    (v3 % 4 * 64 + v4) :: tail)
            | _, _ => Option.none)
        | Option.none => Option.none)
    | _, _ => Option.none)
  | _ => Option.none

theorem b64Val_b64Char_fin : ∀ x : Fin 64, b64Val (b64Char x.val) = some x.val := by
  decide

theorem b64Val_b64Char {x : ℕ} (h : x < 64) : b64Val (b64Char x) = some x :=
  b64Val_b64Char_fin ⟨x, h⟩

theorem b64Char_ne_eq_fin : ∀ x : Fin 64, b64Char x.val ≠ '=' := by decide

theorem b64Char_ne_eq {x : ℕ} (h : x < 64) : b64Char x ≠ '=' :=
  b64Char_ne_eq_fin ⟨x, h⟩

/-- Losslessness of base64 on byte lists. -/
theorem base64Decode_base64Encode (bs : List ℕ) (hb : ∀ x ∈ bs, x < 256) :
    base64Decode (base64Encode bs) = some bs := by
  induction bs using base64Encode.induct with
  | case1 => rfl
  | case2 b1 =>
    have h1 : b1 < 256 := hb b1 (by simp)
    simp only [base64Encode, base64Decode,
      b64Val_b64Char (show b1 / 4 < 64 by omega),
      b64Val_b64Char (show b1 % 4 * 16 < 64 by omega)]
    simp
    omega
  | case3 b1 b2 =>
    have h1 : b1 < 256 := hb b1 (by simp)
    have h2 : b2 < 256 := hb b2 (by simp)
    simp only [base64Encode, base64Decode,
      b64Val_b64Char (show b1 / 4 < 64 by omega),
      b64Val_b64Char (show b1 % 4 * 16 + b2 / 16 < 64 by omega),
      b64Val_b64Char (show b2 % 16 * 4 < 64 by omega)]
    rw [if_neg (b64Char_ne_eq (show b2 % 16 * 4 < 64 by omega))]
    have e1 : b1 / 4 * 4 + (b1 % 4 * 16 + b2 / 16) / 16 = b1 := by omega
    have e2 : (b1 % 4 * 16 + b2 / 16) % 16 * 16 + b2 % 16 * 4 / 4 = b2 := by omega
    simp [e1, e2]
    omega
  | case4 b1 b2 b3 rest ih =>
    have h1 : b1 < 256 := hb b1 (by simp)
    have h2 : b2 < 256 := hb b2 (by simp)
    have h3 : b3 < 256 := hb b3 (by simp)
    have hrest : ∀ x ∈ rest, x < 256 := fun x hx => hb x (by simp [hx])
    have ih2 := ih hrest
    have hne3 : b64Char (b2 % 16 * 4 + b3 / 64) ≠ '=' :=
      b64Char_ne_eq (by omega)
    have hne4 : b64Char (b3 % 64) ≠ '=' := b64Char_ne_eq (by omega)
    simp only [base64Encode, base64Decode,
      b64Val_b64Char (show b1 / 4 < 64 by omega),
      b64Val_b64Char (show b1 % 4 * 16 + b2 / 16 < 64 by omega),
      b64Val_b64Char (show b2 % 16 * 4 + b3 / 64 < 64 by omega),
      b64Val_b64Char (show b3 % 64 < 64 by omega), ih2]
    rw [if_neg hne3, if_neg hne4]
    have e1 : b1 / 4 * 4 + (b1 % 4 * 16 + b2 / 16) / 16 = b1 := by omega
    have e2 : (b1 % 4 * 16 + b2 / 16) % 16 * 16 + (b2 % 16 * 4 + b3 / 64) / 4 = b2 := by
      omega
    have e3 : (b2 % 16 * 4 + b3 / 64) % 4 * 64 + b3 % 64 = b3 := by omega
    simp [e1, e2, e3]


end DRS
namespace DRS

/-! ## `store/funda_postgre.py` — the SCD-2 snapshot store

Python dicts are insertion-ordered association lists with unique keys;
`dictGet`/`dictSet`/`dictPop` mirror `d[k]`-style access (`dictSet`
replaces in place, a new key is appended at the end, as CPython does).
The Postgres tables are the `DBState` record; `NOW()` is the parameter
`now`; `snapshot_id` is the serial counter `nextSnapshotId`;
`snapshot_ts` defaults to the insertion time. -/

abbrev PyDict := List (PyStr × PyVal)

def dictGet : PyDict → PyStr → Option PyVal
  | [], _ => Option.none
  | (k', v) :: rest, k => if k' = k then some v else dictGet rest k

def dictSet : PyDict → PyStr → PyVal → PyDict
  | [], k, v => [(k, v)]
  | (k', v') :: rest, k, v =>
    if k' = k then (k, v) :: rest else (k', v') :: dictSet rest k v

/-- `d.pop(k, None)`: the popped value (if the key exists) and the
remaining dict. -/
def dictPop : PyDict → PyStr → Option PyVal × PyDict
  | [], _ => (Option.none, [])
  | (k', v') :: rest, k =>
    if k' = k then (some v', rest)
    else
      let r := dictPop rest k
      (r.1, (k', v') :: r.2)

/-- `{k: v for k, v in d.items() if Q(k)}`. -/
def filterKeys (q : PyStr → Bool) (d : PyDict) : PyDict :=
  d.filter (fun kv => q kv.1)

/-- `k in fieldSet`. -/
def fieldMem (fs : List PyStr) (k : PyStr) : Bool :=
  fs.any (fun f => f = k)

/-- `LISTING_STATIC_FIELDS` of `store/funda_postgre.py`. -/
def LISTING_STATIC_FIELDS : List PyStr :=
  [S (r"address_country"), S (r"address_province"), S (r"address_city"),
   S (r"address_municipality"), S (r"address_district"),
   S (r"address_neighbourhood"), S (r"address_street"), S (r"address_number"),
   S (r"address_suffix"), S (r"address_postal_code"), S (r"address_is_bag"),
   S (r"latitude"), S (r"longitude"), S (r"property_type"),
   S (r"construction_year"), S (r"living_area"), S (r"plot_area"),
   S (r"number_of_rooms"), S (r"number_of_bedrooms"), S (r"energy_label")]

/-- `LISTING_VOLATILE_FIELDS` of `store/funda_postgre.py`. -/
def LISTING_VOLATILE_FIELDS : List PyStr :=
  [S (r"type"), S (r"status"), S (r"zoning"), S (r"construction_type"),
   S (r"floor_area"), S (r"plot_area"), S (r"floor_area_range_min"),
   S (r"floor_area_range_max"), S (r"plot_area_range_min"),
   S (r"plot_area_range_max"), S (r"rent_price"), S (r"rent_price_condition"),
   S (r"rent_price_type"), S (r"rent_price_range_min"),
   S (r"rent_price_range_max"), S (r"asking_price"),
   S (r"asking_price_range_min"), S (r"asking_price_range_max"),
   S (r"price_type"), S (r"agent_name"), S (r"detail_url"), S (r"media_types"),
   S (r"publish_date"), S (r"blikvanger_enabled"), S (r"crawl_date"),
   S (r"price"), S (r"deposit"), S (r"external_area"), S (r"volume"),
   S (r"house_type"), S (r"balcony"), S (r"storage"), S (r"parking"),
   S (r"insulation"), S (r"heating"), S (r"hot_water"), S (r"description"),
   S (r"listed_since"), S (r"date_of_rental"), S (r"term")]

/-- Escape for JSON string serialization (quote and backslash; control
character escapes are omitted — only the digest's determinism and
injectivity on the written dictionaries matter to any claim). -/
def jsonEscape (s : PyStr) : PyStr :=
  s.foldr (fun c acc => if c = '"' ∨ c = '\x5c' then '\x5c' :: c :: acc else c :: acc) []

/-- `json.dumps` of a scalar value.  A float prints as the canonical
fraction (no claim hashes a float-valued field through a specific
decimal rendering; determinism is what the hash needs). -/
def jsonDumpVal : PyVal → PyStr
  | .none => S (r"null")
  | .bool true => S (r"true")
  | .bool false => S (r"false")
  | .int z => intRepr z
  | .float q => intRepr q.num ++ ('/' :: natRepr q.den)
  | .str s => '"' :: (jsonEscape s ++ ['"'])

/-- `json.dumps(d, separators=(",", ":"))` in insertion order (the
`details_jsonb` serialization at the `upsert_listing` call site does
not pass `sort_keys`). -/
def jsonDumpDict (d : PyDict) : PyStr :=
  Char.ofNat 123 ::
    (List.intercalate [',']
      (d.map (fun kv => jsonDumpVal (.str kv.1) ++ (':' :: jsonDumpVal kv.2)))
     ++ [Char.ofNat 125])

/-- `core_volatile_data`: the hashed volatile triple; `details_jsonb`
is already the serialized JSON string (`json.dumps(details_jsonb)` at
line 153 of the source). -/
structure CoreVolatile where
  status : PyVal
  price : PyVal
  details_jsonb : PyStr
deriving DecidableEq

/-- `_calculate_row_hash`: SHA-256 hex digest of
`json.dumps(data, sort_keys=True, separators=(",", ":"))`.  The digest
is modelled as the sorted-key serialization itself: an injective
stand-in for the hash — every claim about the store depends only on
digest equality of equal serializations and inequality of distinct
ones, never on digest format (sorted key order:
`"details_jsonb" < "price" < "status"`). -/
def _calculate_row_hash (c : CoreVolatile) : PyStr :=
  jsonDumpDict
    [(S (r"details_jsonb"), .str c.details_jsonb),
     (S (r"price"), c.price),
     (S (r"status"), c.status)]

/-- `if "id" in listing_item: listing_item["listing_id"] = listing_item.pop("id")`. -/
def renameId (item0 : PyDict) : PyDict :=
  match dictGet item0 (S (r"id")) with
  | some v => dictSet (dictPop item0 (S (r"id"))).2 (S (r"listing_id")) v
  | Option.none => item0

/-- Lines 119–129 of the source: filter the volatile fields, pop
`rent_price` (falling back to `asking_price` only when the popped value
`is None`), and write the consolidated value back under `"price"` when
it `is not None`. -/
def volatileWithPrice (item : PyDict) : PyDict :=
  let volatile0 := filterKeys (fieldMem LISTING_VOLATILE_FIELDS) item
  let pr := dictPop volatile0 (S (r"rent_price"))
  let priceV := pr.1.getD PyVal.none
  let pr2 :=
    if priceV = PyVal.none then
      let p2 := dictPop pr.2 (S (r"asking_price"))
      (p2.1.getD PyVal.none, p2.2)
    else (priceV, pr.2)
  if pr2.1 ≠ PyVal.none then dictSet pr2.2 (S (r"price")) pr2.1 else pr2.2

/-- Key filter of the `details_jsonb` comprehension
(`k not in ["status", "price"]`). -/
def detailsKey (k : PyStr) : Bool :=
  decide (k ≠ S (r"status") ∧ k ≠ S (r"price"))

/-- Lines 137–148 of the source: zlib-compress and base64-encode a
present, truthy description and set `description_is_compressed = True`.
A truthy non-`str` description would raise `AttributeError` at
`.encode`. -/
def compressDescription (d : PyDict) : Except PyErr PyDict :=
  match dictGet d (S (r"description")) with
  | some v =>
    if pyTruthy v then
      match v with
      | .str ds =>
        .ok (dictSet
              (dictSet d (S (r"description"))
                (.str (base64Encode (zlibCompress (utf8Encode ds)))))
              (S (r"description_is_compressed")) (.bool true))
      | _ => .error .attributeError
    else .ok d
  | Option.none => .ok d

/-- The data computed by `upsert_listing` before any SQL runs. -/
structure PreparedListing where
  listing_id : PyVal
  static_data : PyDict
  core : CoreVolatile
  details : PyDict
  row_hash : PyStr
deriving DecidableEq

/-- The pure prefix of `upsert_listing` (everything before
`db.pool.acquire()`). -/
def prepareListing (item0 : PyDict) : Except PyErr PreparedListing :=
  let item := renameId item0
  match dictGet item (S (r"listing_id")) with
  | Option.none => .error .valueError
  | some lid =>
    if pyTruthy lid then
      let static_data := filterKeys (fieldMem LISTING_STATIC_FIELDS) item
      let vol3 := volatileWithPrice item
      let details0 := filterKeys detailsKey vol3
      match compressDescription details0 with
      | .ok details =>
        let core : CoreVolatile :=
          ⟨(dictGet vol3 (S (r"status"))).getD PyVal.none,
           (dictGet vol3 (S (r"price"))).getD PyVal.none,
           jsonDumpDict details⟩
        .ok ⟨lid, static_data, core, details, _calculate_row_hash core⟩
      | .error e => .error e
    else .error .valueError

/-- One row of `{offering_type}_listing_snapshots`.  `details` is the
structured value whose serialization `details_jsonb` the column holds;
the model carries both. -/
structure SnapshotRow where
  listing_id : PyVal
  row_hash : PyStr
  status : PyVal
  price : PyVal
  details_jsonb : PyStr
  details : PyDict
  snapshot_ts : ℕ
  snapshot_id : ℕ
deriving DecidableEq

/-- One row of `{offering_type}_listings`. -/
structure ListingRow where
  listing_id : PyVal
  static : PyDict
  last_seen_at : ℕ
  current_snapshot_id : Option ℕ
deriving DecidableEq

structure DBState where
  listings : List ListingRow
  snapshots : List SnapshotRow
  nextSnapshotId : ℕ
deriving DecidableEq

/-- `SELECT row_hash ... ORDER BY snapshot_ts DESC LIMIT 1`: the row
with maximal `snapshot_ts` for the listing, ties resolved towards the
later row (under the store's use, `snapshot_ts` is non-decreasing in
insertion order). -/
def latestSnapshot (snaps : List SnapshotRow) (lid : PyVal) : Option SnapshotRow :=
  (snaps.filter (fun r => r.listing_id = lid)).foldl
    (fun acc r =>
      match acc with
      | Option.none => some r
      | some b => if b.snapshot_ts ≤ r.snapshot_ts then some r else some b)
    Option.none

def latestSnapshotHash (snaps : List SnapshotRow) (lid : PyVal) : Option PyStr :=
  (latestSnapshot snaps lid).map (fun r => r.row_hash)

/-- `upsert_listing(listing_item, offering_type)`: the transactional
body, at time `now`.  The hash-changed branch upserts the listing row
(`ON CONFLICT (listing_id) DO UPDATE SET last_seen_at = NOW()` — static
columns are written only on first insert), inserts the snapshot, and
repoints `current_snapshot_id`; the unchanged branch touches only
`last_seen_at`. -/
def upsert_listing (now : ℕ) (item : PyDict) (db : DBState) :
    Except PyErr DBState :=
  match prepareListing item with
  | .error e => .error e
  | .ok p =>
    if latestSnapshotHash db.snapshots p.listing_id ≠ some p.row_hash then
      let listings1 :=
        if db.listings.any (fun r => r.listing_id = p.listing_id) then
          db.listings.map (fun r =>
            if r.listing_id = p.listing_id then { r with last_seen_at := now } else r)
        else
          db.listings ++ [⟨p.listing_id, p.static_data, now, Option.none⟩]
      let snap : SnapshotRow :=
        ⟨p.listing_id, p.row_hash, p.core.status, p.core.price,
         p.core.details_jsonb, p.details, now, db.nextSnapshotId⟩
      let listings2 := listings1.map (fun r =>
        if r.listing_id = p.listing_id then
          { r with current_snapshot_id := some db.nextSnapshotId,
                   last_seen_at := now }
        else r)
      .ok ⟨listings2, db.snapshots ++ [snap], db.nextSnapshotId + 1⟩
    else
      .ok ⟨db.listings.map (fun r =>
            if r.listing_id = p.listing_id then { r with last_seen_at := now } else r),
           db.snapshots, db.nextSnapshotId⟩

end DRS

namespace DRS

/-! ### Dictionary and latest-snapshot lemmas -/

theorem dictGet_dictSet_self (d : PyDict) (k : PyStr) (v : PyVal) :
    dictGet (dictSet d k v) k = some v := by
  induction d with
  | nil => simp [dictSet, dictGet]
  | cons kv rest ih =>
    obtain ⟨k0, v0⟩ := kv
    by_cases h : k0 = k
    · simp [dictSet, dictGet, h]
    · simp [dictSet, dictGet, h, ih]

theorem dictGet_dictSet_ne (d : PyDict) {k' k : PyStr} (v : PyVal) (h : k' ≠ k) :
    dictGet (dictSet d k' v) k = dictGet d k := by
  induction d with
  | nil => simp [dictSet, dictGet, h]
  | cons kv rest ih =>
    obtain ⟨k0, v0⟩ := kv
    by_cases hk : k0 = k'
    · simp [dictSet, dictGet, hk, h, fun hc : k0 = k => h (hk.symm.trans hc)]
    · by_cases hk2 : k0 = k
      · simp [dictSet, dictGet, hk, hk2, Ne.symm h]
      · simp [dictSet, dictGet, hk, hk2, ih]

theorem dictGet_dictPop_ne (d : PyDict) {k' k : PyStr} (h : k' ≠ k) :
    dictGet (dictPop d k').2 k = dictGet d k := by
  induction d with
  | nil => rfl
  | cons kv rest ih =>
    obtain ⟨k0, v0⟩ := kv
    by_cases hk : k0 = k'
    · have hk2 : ¬ k0 = k := fun hc => h (hk.symm.trans hc)
      simp [dictPop, dictGet, hk, hk2, h]
    · by_cases hk2 : k0 = k
      · simp [dictPop, dictGet, hk, hk2, Ne.symm h]
      · simp [dictPop, dictGet, hk, hk2, ih]

theorem dictGet_filterKeys_pos (q : PyStr → Bool) (d : PyDict) (k : PyStr)
    (hq : q k = true) :
    dictGet (filterKeys q d) k = dictGet d k := by
  induction d with
  | nil => simp [filterKeys, dictGet]
  | cons kv rest ih =>
    obtain ⟨k0, v0⟩ := kv
    by_cases hk : k0 = k
    · subst hk
      simp [filterKeys, List.filter_cons, hq, dictGet]
    · by_cases hqk : q k0 = true
      · simpa [filterKeys, List.filter_cons, hqk, dictGet, hk] using ih
      · simpa [filterKeys, List.filter_cons, hqk, dictGet, hk] using ih

theorem dictGet_renameId (item : PyDict) {k : PyStr}
    (h1 : k ≠ S (r"id")) (h2 : k ≠ S (r"listing_id")) :
    dictGet (renameId item) k = dictGet item k := by
  unfold renameId
  cases hid : dictGet item (S (r"id")) with
  | none => rfl
  | some v =>
    rw [dictGet_dictSet_ne _ _ (fun hc => h2 hc.symm),
        dictGet_dictPop_ne _ (fun hc => h1 hc.symm)]

theorem dictGet_volatileWithPrice (item : PyDict) {k : PyStr}
    (hmem : fieldMem LISTING_VOLATILE_FIELDS k = true)
    (h1 : k ≠ S (r"rent_price")) (h2 : k ≠ S (r"asking_price"))
    (h3 : k ≠ S (r"price")) :
    dictGet (volatileWithPrice item) k = dictGet item k := by
  have hv0 : dictGet (filterKeys (fieldMem LISTING_VOLATILE_FIELDS) item) k
      = dictGet item k := dictGet_filterKeys_pos _ _ _ hmem
  have hrent : ∀ d : PyDict, dictGet (dictPop d (S (r"rent_price"))).2 k = dictGet d k :=
    fun d => dictGet_dictPop_ne d (fun hc => h1 hc.symm)
  have hask : ∀ d : PyDict, dictGet (dictPop d (S (r"asking_price"))).2 k = dictGet d k :=
    fun d => dictGet_dictPop_ne d (fun hc => h2 hc.symm)
  have hsetp : ∀ (d : PyDict) (v : PyVal),
      dictGet (dictSet d (S (r"price")) v) k = dictGet d k :=
    fun d v => dictGet_dictSet_ne d v (fun hc => h3 hc.symm)
  unfold volatileWithPrice
  dsimp only
  split <;> (try split) <;> (dsimp only; simp only [hsetp, hask, hrent, hv0])

end DRS

namespace DRS

/-- The max-`snapshot_ts` accumulator of `latestSnapshot` only ever
holds a row from the traversed list. -/
theorem latestSnapshot_fold_mem (l : List SnapshotRow) :
    ∀ (acc : Option SnapshotRow) (b : SnapshotRow),
      l.foldl
        (fun acc r =>
          match acc with
          | Option.none => some r
          | some b => if b.snapshot_ts ≤ r.snapshot_ts then some r else some b)
        acc = some b →
      b ∈ l ∨ acc = some b := by
  induction l with
  | nil => intro acc b h; exact Or.inr h
  | cons x xs ih =>
    intro acc b h
    rcases ih _ b h with hx | hacc
    · exact Or.inl (List.mem_cons_of_mem _ hx)
    · cases acc with
      | none =>
        have hxb : x = b := by simpa using hacc
        subst hxb
        exact Or.inl (List.mem_cons_self x xs)
      | some a =>
        simp only [] at hacc
        by_cases hts : a.snapshot_ts ≤ x.snapshot_ts
        · rw [if_pos hts] at hacc
          have hxb : x = b := Option.some.inj hacc
          subst hxb
          exact Or.inl (List.mem_cons_self x xs)
        · rw [if_neg hts] at hacc
          exact Or.inr hacc

/-- Appending a snapshot whose timestamp dominates every existing
snapshot of the same listing makes it the latest. -/
theorem latestSnapshot_append (snaps : List SnapshotRow) (r : SnapshotRow)
    (lid : PyVal) (hid : r.listing_id = lid)
    (hts : ∀ s ∈ snaps, s.snapshot_ts ≤ r.snapshot_ts) :
    latestSnapshot (snaps ++ [r]) lid = some r := by
  unfold latestSnapshot
  rw [List.filter_append, List.foldl_append]
  have hfr : List.filter (fun s => decide (s.listing_id = lid)) [r] = [r] := by
    simp [List.filter_cons, hid]
  rw [hfr]
  cases hacc : List.foldl
      (fun acc r =>
        match acc with
        | Option.none => some r
        | some b => if b.snapshot_ts ≤ r.snapshot_ts then some r else some b)
      Option.none (List.filter (fun s => decide (s.listing_id = lid)) snaps) with
  | none => simp
  | some b =>
    have hb : b ∈ List.filter (fun s => decide (s.listing_id = lid)) snaps := by
      rcases latestSnapshot_fold_mem _ _ _ hacc with h | h
      · exact h
      · exact absurd h (by simp)
    have hble : b.snapshot_ts ≤ r.snapshot_ts := hts b (List.mem_of_mem_filter hb)
    simp [hble]

/-- After a successful `upsert_listing`, the listing's most recent
stored hash is exactly the hash of the written content — via a fresh
snapshot row in the changed branch, and via the already-latest row in
the unchanged branch. -/
theorem latestHash_after_upsert (now : ℕ) (item : PyDict) (db db' : DBState)
    (p : PreparedListing) (hp : prepareListing item = .ok p)
    (hwf : ∀ s ∈ db.snapshots, s.snapshot_ts ≤ now)
    (h : upsert_listing now item db = .ok db') :
    latestSnapshotHash db'.snapshots p.listing_id = some p.row_hash := by
  unfold upsert_listing at h
  rw [hp] at h
  dsimp only at h
  by_cases hc : latestSnapshotHash db.snapshots p.listing_id ≠ some p.row_hash
  · rw [if_pos hc] at h
    simp only [Except.ok.injEq] at h
    subst h
    unfold latestSnapshotHash
    rw [latestSnapshot_append db.snapshots _ p.listing_id rfl
      (fun s hs => hwf s hs)]
    rfl
  · rw [if_neg hc] at h
    simp only [Except.ok.injEq] at h
    subst h
    simpa using not_not.mp hc

/-- The hash-changed branch of `upsert_listing`, spelled out. -/
theorem upsert_insert_path (now : ℕ) (item : PyDict) (db : DBState)
    (p : PreparedListing) (hp : prepareListing item = .ok p)
    (hdiff : latestSnapshotHash db.snapshots p.listing_id ≠ some p.row_hash) :
    upsert_listing now item db = .ok
      ⟨(if db.listings.any (fun r => r.listing_id = p.listing_id) then
          db.listings.map (fun r =>
            if r.listing_id = p.listing_id then { r with last_seen_at := now } else r)
        else
          db.listings ++ [⟨p.listing_id, p.static_data, now, Option.none⟩]).map
        (fun r =>
          if r.listing_id = p.listing_id then
            { r with current_snapshot_id := some db.nextSnapshotId,
                     last_seen_at := now }
          else r),
       db.snapshots ++
         [⟨p.listing_id, p.row_hash, p.core.status, p.core.price,
           p.core.details_jsonb, p.details, now, db.nextSnapshotId⟩],
       db.nextSnapshotId + 1⟩ := by
  unfold upsert_listing
  rw [hp]
  dsimp only
  rw [if_pos hdiff]

/-- The hash-unchanged branch of `upsert_listing`, spelled out. -/
theorem upsert_touch_path (now : ℕ) (item : PyDict) (db : DBState)
    (p : PreparedListing) (hp : prepareListing item = .ok p)
    (hsame : latestSnapshotHash db.snapshots p.listing_id = some p.row_hash) :
    upsert_listing now item db = .ok
      ⟨db.listings.map (fun r =>
          if r.listing_id = p.listing_id then { r with last_seen_at := now } else r),
       db.snapshots, db.nextSnapshotId⟩ := by
  unfold upsert_listing
  rw [hp]
  dsimp only
  rw [if_neg (not_not_intro hsame)]

end DRS

namespace DRS

/-- The price pipeline always returns a number: `0` on falsy or
unparsable input, the parsed float otherwise. -/
theorem pricePipeline_shape (v : PyVal) :
    pricePipeline v = .ok (.int 0) ∨ ∃ q, pricePipeline v = .ok (.float q) := by
  cases v with
  | str s =>
    by_cases ht : s = []
    · left
      unfold pricePipeline
      simp [pyTruthy, ht]
    · cases hf : pyFloat? (priceCleaned s) with
      | none =>
        left
        unfold pricePipeline
        simp [pyTruthy, ht, hf]
      | some q =>
        right
        refine ⟨q, ?_⟩
        unfold pricePipeline
        simp [pyTruthy, ht, hf]
  | none => left; rfl
  | bool b =>
    cases b with
    | false => left; rfl
    | true => left; rfl
  | int z =>
    by_cases hz : z = 0
    · left; unfold pricePipeline; simp [pyTruthy, hz]
    · left; unfold pricePipeline; simp [pyTruthy, hz]
  | float q =>
    by_cases hq : q = 0
    · left; unfold pricePipeline; simp [pyTruthy, hq]
    · left; unfold pricePipeline; simp [pyTruthy, hq]

/-- `ItemDescriptor.__get__` for a `float` field whose pipeline always
returns a number never yields Python `None`: a missing value becomes
`0`, and every pipeline/cast outcome is a number (all exception paths
are caught and map to `0`). -/
theorem descGetFloat_never_none (pipeline : PyVal → Except PyErr PyVal)
    (hpl : ∀ v, pipeline v = .ok (.int 0) ∨ ∃ q, pipeline v = .ok (.float q))
    (stored : Option PyVal) :
    ∃ v, itemDescriptorGetFloat pipeline stored = .ok v ∧ v ≠ PyVal.none := by
  unfold itemDescriptorGetFloat
  cases hst : stored.getD PyVal.none with
  | none => exact ⟨.int 0, rfl, by simp⟩
  | bool b =>
    rcases hpl (.bool b) with h | ⟨q, h⟩
    · exact ⟨.float 0, by dsimp only; rw [h]; rfl, by simp⟩
    · exact ⟨.float q, by dsimp only; rw [h]; rfl, by simp⟩
  | int z =>
    rcases hpl (.int z) with h | ⟨q, h⟩
    · exact ⟨.float 0, by dsimp only; rw [h]; rfl, by simp⟩
    · exact ⟨.float q, by dsimp only; rw [h]; rfl, by simp⟩
  | float q0 =>
    rcases hpl (.float q0) with h | ⟨q, h⟩
    · exact ⟨.float 0, by dsimp only; rw [h]; rfl, by simp⟩
    · exact ⟨.float q, by dsimp only; rw [h]; rfl, by simp⟩
  | str s =>
    rcases hpl (.str s) with h | ⟨q, h⟩
    · exact ⟨.float 0, by dsimp only; rw [h]; rfl, by simp⟩
    · exact ⟨.float q, by dsimp only; rw [h]; rfl, by simp⟩

/-- `HouseDetails.price` descriptor access never yields Python `None`.
This is what makes the `getattr(house_info, "price") is None` guard in
`_fetch_and_parse_detail` unsatisfiable. -/
theorem housePrice_never_none (stored : Option PyVal) :
    ∃ v, housePrice stored = .ok v ∧ v ≠ PyVal.none :=
  descGetFloat_never_none pricePipeline pricePipeline_shape stored

/-- Chasing a non-empty description through `upsert_listing`'s field
partition: it reaches the `details_jsonb` dict compressed and
base64-encoded, with the `description_is_compressed` flag set. -/
theorem prepare_details_of_description (item : PyDict) (p : PreparedListing)
    (d : PyStr) (hp : prepareListing item = .ok p)
    (hdesc : dictGet item (S (r"description")) = some (.str d)) (hne : d ≠ []) :
    dictGet p.details (S (r"description")) =
      some (.str (base64Encode (zlibCompress (utf8Encode d))))
    ∧ dictGet p.details (S (r"description_is_compressed")) = some (.bool true) := by
  have hd1 : dictGet (renameId item) (S (r"description")) = some (.str d) := by
    rw [dictGet_renameId item (by decide) (by decide)]; exact hdesc
  have hd2 : dictGet (volatileWithPrice (renameId item)) (S (r"description"))
      = some (.str d) := by
    rw [dictGet_volatileWithPrice _ (by decide) (by decide) (by decide) (by decide)]
    exact hd1
  have hd3 : dictGet (filterKeys detailsKey (volatileWithPrice (renameId item)))
      (S (r"description")) = some (.str d) := by
    rw [dictGet_filterKeys_pos _ _ _ (by decide)]
    exact hd2
  have hcomp : compressDescription
      (filterKeys detailsKey (volatileWithPrice (renameId item))) = .ok
      (dictSet
        (dictSet (filterKeys detailsKey (volatileWithPrice (renameId item)))
          (S (r"description"))
          (.str (base64Encode (zlibCompress (utf8Encode d)))))
        (S (r"description_is_compressed")) (.bool true)) := by
    unfold compressDescription
    rw [hd3]
    simp [pyTruthy, hne]
  have hdet : p.details =
      dictSet
        (dictSet (filterKeys detailsKey (volatileWithPrice (renameId item)))
          (S (r"description"))
          (.str (base64Encode (zlibCompress (utf8Encode d)))))
        (S (r"description_is_compressed")) (.bool true) := by
    unfold prepareListing at hp
    dsimp only at hp
    cases hlid : dictGet (renameId item) (S (r"listing_id")) with
    | none => rw [hlid] at hp; exact absurd hp (by simp)
    | some lid =>
      rw [hlid] at hp
      dsimp only at hp
      by_cases htr : pyTruthy lid = true
      · rw [if_pos htr, hcomp] at hp
        have := (Except.ok.inj hp)
        rw [← this]
      · rw [if_neg htr] at hp; exact absurd hp (by simp)
  constructor
  · rw [hdet, dictGet_dictSet_ne _ _ (by decide), dictGet_dictSet_self]
  · rw [hdet, dictGet_dictSet_self]

end DRS

namespace DRS

theorem storedBlocksFuel_lt (f1 : ℕ) :
    ∀ (b : List ℕ), b.length ≤ 65535 * f1 + 65535 → (∀ x ∈ b, x < 256) →
    ∀ x ∈ storedBlocksFuel f1 b, x < 256 := by
  induction f1 with
  | zero =>
    intro b hf hb x hx
    simp only [storedBlocksFuel, List.cons_append, List.nil_append,
      List.mem_cons] at hx
    rcases hx with rfl | rfl | rfl | hx
    · omega
    · omega
    · omega
    · exact hb x hx
  | succ f ih =>
    intro b hf hb x hx
    by_cases h : b.length ≤ 65535
    · simp only [storedBlocksFuel, if_pos h, List.cons_append, List.nil_append,
        List.mem_cons] at hx
      rcases hx with rfl | rfl | rfl | hx
      · omega
      · omega
      · omega
      · exact hb x hx
    · simp only [storedBlocksFuel, if_neg h, List.cons_append, List.nil_append,
        List.mem_cons, List.mem_append] at hx
      rcases hx with rfl | rfl | rfl | hx | hx
      · omega
      · omega
      · omega
      · exact hb x (List.mem_of_mem_take hx)
      · exact ih (b.drop 65535) (by simp [List.length_drop]; omega)
          (fun y hy => hb y (List.mem_of_mem_drop hy)) x hx

theorem zlibCompress_lt (b : List ℕ) (hb : ∀ x ∈ b, x < 256) :
    ∀ x ∈ zlibCompress b, x < 256 := by
  intro x hx
  unfold zlibCompress at hx
  rcases List.mem_cons.mp hx with rfl | hx
  · omega
  rcases List.mem_cons.mp hx with rfl | hx
  · omega
  exact storedBlocksFuel_lt b.length b (by nlinarith) hb x hx

/-- Claim C1: for every listing, two successive `upsert_listing` calls
with identical volatile-field content insert exactly one snapshot row.
The second call computes the same content hash, which now equals the
listing's most recent stored hash, so it inserts nothing and only
touches the listing row's `last_seen_at`; and when the listing had no
prior snapshot at all, the first call inserted exactly the one new
row. -/
theorem C1_upsert_idempotent (item : PyDict) (db db1 : DBState) (now1 now2 : ℕ)
    (hwf : ∀ s ∈ db.snapshots, s.snapshot_ts ≤ now1)
    (h1 : upsert_listing now1 item db = .ok db1) :
    ∃ p, prepareListing item = .ok p
      ∧ upsert_listing now2 item db1 =
          .ok ⟨db1.listings.map (fun r =>
                if r.listing_id = p.listing_id then { r with last_seen_at := now2 }
                else r),
               db1.snapshots, db1.nextSnapshotId⟩
      ∧ (latestSnapshotHash db.snapshots p.listing_id = Option.none →
           db1.snapshots = db.snapshots ++
             [⟨p.listing_id, p.row_hash, p.core.status, p.core.price,
               p.core.details_jsonb, p.details, now1, db.nextSnapshotId⟩]) := by
  cases hpE : prepareListing item with
  | error e =>
    unfold upsert_listing at h1
    rw [hpE] at h1
    exact absurd h1 (by simp)
  | ok p =>
    refine ⟨p, rfl, ?_, ?_⟩
    · exact upsert_touch_path now2 item db1 p hpE
        (latestHash_after_upsert now1 item db db1 p hpE hwf h1)
    · intro hnone
      have hdiff : latestSnapshotHash db.snapshots p.listing_id ≠ some p.row_hash := by
        rw [hnone]; simp
      have hins := upsert_insert_path now1 item db p hpE hdiff
      rw [h1] at hins
      have hdb1 := Except.ok.inj hins
      rw [hdb1]

/-- Claim C2: when the computed content hash differs from the most
recent stored hash (including the first-ever sighting),
`upsert_listing` appends exactly one new snapshot row — leaving every
previously inserted snapshot row unmodified — upserts the static
listing row, and repoints the listing's `current_snapshot_id` at the
new snapshot while touching `last_seen_at`. -/
theorem C2_upsert_change (now : ℕ) (item : PyDict) (db : DBState)
    (p : PreparedListing) (hp : prepareListing item = .ok p)
    (hdiff : latestSnapshotHash db.snapshots p.listing_id ≠ some p.row_hash) :
    ∃ db', upsert_listing now item db = .ok db'
      ∧ db'.snapshots = db.snapshots ++
          [⟨p.listing_id, p.row_hash, p.core.status, p.core.price,
            p.core.details_jsonb, p.details, now, db.nextSnapshotId⟩]
      ∧ db'.nextSnapshotId = db.nextSnapshotId + 1
      ∧ (∃ r ∈ db'.listings, r.listing_id = p.listing_id
           ∧ r.current_snapshot_id = some db.nextSnapshotId
           ∧ r.last_seen_at = now)
      ∧ ((∀ r ∈ db.listings, r.listing_id ≠ p.listing_id) →
           (⟨p.listing_id, p.static_data, now, some db.nextSnapshotId⟩ : ListingRow)
             ∈ db'.listings) := by
  refine ⟨_, upsert_insert_path now item db p hp hdiff, rfl, rfl, ?_, ?_⟩
  · by_cases hany : (db.listings.any (fun r => r.listing_id = p.listing_id)) = true
    · rcases List.any_eq_true.mp hany with ⟨r0, hr0mem, hr0id⟩
      have hr0id' : r0.listing_id = p.listing_id := of_decide_eq_true hr0id
      refine ⟨⟨p.listing_id, r0.static, now, some db.nextSnapshotId⟩, ?_, rfl, rfl, rfl⟩
      simp only [if_pos hany]
      refine List.mem_map.mpr ⟨{ r0 with last_seen_at := now }, List.mem_map.mpr ⟨r0, hr0mem, ?_⟩, ?_⟩
      · rw [if_pos hr0id']
      · simp [hr0id']
    · refine ⟨⟨p.listing_id, p.static_data, now, some db.nextSnapshotId⟩, ?_, rfl, rfl, rfl⟩
      simp only [if_neg hany]
      refine List.mem_map.mpr
        ⟨⟨p.listing_id, p.static_data, now, Option.none⟩,
         List.mem_append.mpr (Or.inr (List.mem_singleton.mpr rfl)), by simp⟩
  · intro hfresh
    have hany : (db.listings.any (fun r => r.listing_id = p.listing_id)) ≠ true := by
      intro hc
      rcases List.any_eq_true.mp hc with ⟨r0, hr0mem, hr0id⟩
      exact hfresh r0 hr0mem (of_decide_eq_true hr0id)
    simp only [if_neg hany]
    refine List.mem_map.mpr
      ⟨⟨p.listing_id, p.static_data, now, Option.none⟩,
       List.mem_append.mpr (Or.inr (List.mem_singleton.mpr rfl)), by simp⟩

end DRS

namespace DRS

/-- Claim C10: a record with a non-empty description is stored with
that description zlib-compressed then base64-encoded (flagged by
`description_is_compressed = True` in the details blob), and the
transformation round-trips: base64-decoding the stored string and
zlib-decompressing the result recovers exactly the UTF-8 bytes of the
original description. -/
theorem C10_description_compressed_roundtrip (now : ℕ) (item : PyDict)
    (db : DBState) (p : PreparedListing) (d : PyStr)
    (hp : prepareListing item = .ok p)
    (hdesc : dictGet item (S (r"description")) = some (.str d))
    (hne : d ≠ [])
    (hdiff : latestSnapshotHash db.snapshots p.listing_id ≠ some p.row_hash) :
    ∃ db' snap, upsert_listing now item db = .ok db'
      ∧ db'.snapshots = db.snapshots ++ [snap]
      ∧ dictGet snap.details (S (r"description")) =
          some (.str (base64Encode (zlibCompress (utf8Encode d))))
      ∧ dictGet snap.details (S (r"description_is_compressed")) = some (.bool true)
      ∧ base64Decode (base64Encode (zlibCompress (utf8Encode d))) =
          some (zlibCompress (utf8Encode d))
      ∧ zlibDecompress (zlibCompress (utf8Encode d)) = some (utf8Encode d) := by
  have hdet := prepare_details_of_description item p d hp hdesc hne
  refine ⟨_, ⟨p.listing_id, p.row_hash, p.core.status, p.core.price,
      p.core.details_jsonb, p.details, now, db.nextSnapshotId⟩,
    upsert_insert_path now item db p hp hdiff, rfl, hdet.1, hdet.2, ?_, ?_⟩
  · exact base64Decode_base64Encode _ (zlibCompress_lt _ (utf8Encode_lt d))
  · exact zlibDecompress_zlibCompress _

/-- Claim C5: a detail body containing the captcha marker raises
`IPBlockError`; the handler reports the failure to the CookieManager
and force-refreshes the cookie exactly when the crawler-wide
refresh-attempt counter is still below `MAX_COOKIE_UPDATE_LIMIT`,
otherwise the call halts fatally; and no captcha fetch ever produces a
parsed detail outcome, so no valid extracted result is stored. -/
theorem C5_captcha_ip_block (limit : ℕ) (extract : PyStr → Option HouseRec)
    (html : PyStr) (st : Counters)
    (hmarker : containsSub captchaMarker html = true) :
    (st.cookie_update_attempts < limit →
       fetchAndParseDetail limit extract (some html) st =
         .ok ⟨.nothing,
              { st with ip_block_count := st.ip_block_count + 1,
                        cookie_update_attempts := st.cookie_update_attempts + 1 },
              true, true⟩)
    ∧ (limit ≤ st.cookie_update_attempts →
       fetchAndParseDetail limit extract (some html) st =
         .error .cookieUpdateLimitReached)
    ∧ (∀ res, fetchAndParseDetail limit extract (some html) st = .ok res →
        ∀ h, storeStep res.outcome ≠ .storedSnapshot h) := by
  have hne : html ≠ [] := by
    intro hempty
    rw [hempty] at hmarker
    simp only [containsSub] at hmarker
    exact absurd hmarker (by decide)
  have hbranch : ∀ st' : Counters, fetchAndParseDetail limit extract (some html) st =
      (if st.cookie_update_attempts < limit then
        .ok ⟨.nothing,
             { st with ip_block_count := st.ip_block_count + 1,
                       cookie_update_attempts := st.cookie_update_attempts + 1 },
             true, true⟩
      else .error .cookieUpdateLimitReached) := by
    intro _
    unfold fetchAndParseDetail
    dsimp only
    rw [if_neg hne, if_pos hmarker]
  refine ⟨?_, ?_, ?_⟩
  · intro hlt
    rw [hbranch st, if_pos hlt]
  · intro hge
    rw [hbranch st, if_neg (by omega)]
  · intro res hres h
    rw [hbranch st] at hres
    by_cases hlt : st.cookie_update_attempts < limit
    · rw [if_pos hlt] at hres
      have := Except.ok.inj hres
      rw [← this]
      simp [storeStep]
    · rw [if_neg hlt] at hres
      exact absurd hres (by simp)

/-- Claim C6: a search whose first page reports 20 total results at
page size 15, run with `start_page = 1` and `end_page = None`, performs
exactly 2 page fetches — `[1, 2]` in order, page 2 requested only in
the loop that runs after the first response fixed
`total_pages = ceil(20/15) = 2` — yields 20 properties in total, and
never requests a page beyond the computed last page. -/
theorem C6_two_page_scenario (fp : FirstPageResult)
    (fetcher : ℕ → PageFetchOutcome) (l2 : List Listing)
    (h1 : fp.total_value = 20) (h2 : fp.properties.length = 15)
    (h3 : fetcher 2 = .ok l2) (h4 : l2.length = 5) :
    (get_house_info_generator 1 Option.none (.ok fp) fetcher).fetchedPages = [1, 2]
    ∧ ((get_house_info_generator 1 Option.none (.ok fp) fetcher).yielded.map
        List.length).sum = 20
    ∧ ∀ n ∈ (get_house_info_generator 1 Option.none (.ok fp) fetcher).fetchedPages,
        n ≤ (fp.total_value + 14) / 15 := by
  have hl2ne : l2 ≠ [] := by
    intro hc; rw [hc] at h4; simp at h4
  have e1 : ((20 : ℕ) + 14) / 15 = 2 := by norm_num
  have hgen : get_house_info_generator 1 Option.none (.ok fp) fetcher =
      { fetchedPages := [1, 2], yielded := [fp.properties, l2] } := by
    unfold get_house_info_generator
    dsimp only
    rw [h1, e1]
    rw [show List.range' (1 + 1) (2 + 1 - (1 + 1)) = [2] from rfl]
    rw [show ([2] : List ℕ).map (fun n => fetch_page (fetcher n)) =
        [fetch_page (fetcher 2)] from rfl]
    rw [h3]
    simp [fetch_page, hl2ne]
  rw [hgen, h1]
  refine ⟨rfl, ?_, ?_⟩
  · simp [h2, h4]
  · intro n hn
    rcases List.mem_cons.mp hn with rfl | hn
    · norm_num
    · rcases List.mem_cons.mp hn with rfl | hn
      · norm_num
      · simp at hn

end DRS

namespace DRS

/-- Pipeline shape for `HouseDetails.living_area`, mirroring
`pricePipeline_shape`. -/
theorem livingAreaPipeline_shape (v : PyVal) :
    livingAreaPipeline v = .ok (.int 0) ∨ ∃ q, livingAreaPipeline v = .ok (.float q) := by
  cases v with
  | str s =>
    by_cases ht : s = []
    · left; unfold livingAreaPipeline; simp [pyTruthy, ht]
    · cases hf : pyFloat? (livingAreaCleaned s) with
      | none => left; unfold livingAreaPipeline; simp [pyTruthy, ht, hf]
      | some q =>
        right
        refine ⟨q, ?_⟩
        unfold livingAreaPipeline
        simp [pyTruthy, ht, hf]
  | none => left; rfl
  | bool b =>
    cases b with
    | false => left; rfl
    | true => left; rfl
  | int z =>
    by_cases hz : z = 0
    · left; unfold livingAreaPipeline; simp [pyTruthy, hz]
    · left; unfold livingAreaPipeline; simp [pyTruthy, hz]
  | float q =>
    by_cases hq : q = 0
    · left; unfold livingAreaPipeline; simp [pyTruthy, hq]
    · left; unfold livingAreaPipeline; simp [pyTruthy, hq]

/-- Claim C7: the numeric cleaners are total and normalizing —
`"€ 3,250 /maand"` cleans to the price `3250.0`, `"118 m²"` cleans to
the area `118`, every string whose cleaned form fails `float()` (the
empty string included) yields the zero value `0.0`, and the accessors
never let an exception escape. -/
theorem C7_numeric_cleaning :
    housePrice (some (.str (S (r"€ 3,250 /maand")))) = .ok (.float 3250)
    ∧ houseLivingArea (some (.str (S (r"118 m²")))) = .ok (.float 118)
    ∧ housePrice (some (.str [])) = .ok (.float 0)
    ∧ (∀ s : PyStr, pyFloat? (priceCleaned s) = Option.none →
         housePrice (some (.str s)) = .ok (.float 0))
    ∧ (∀ s : PyStr, pyFloat? (livingAreaCleaned s) = Option.none →
         houseLivingArea (some (.str s)) = .ok (.float 0))
    ∧ (∀ stored : Option PyVal, ∃ v, housePrice stored = .ok v)
    ∧ (∀ stored : Option PyVal, ∃ v, houseLivingArea stored = .ok v) := by
  refine ⟨by decide, by decide, by decide, ?_, ?_, ?_, ?_⟩
  · intro s hf
    by_cases hs : s = []
    · subst hs; decide
    · unfold housePrice itemDescriptorGetFloat pricePipeline
      simp [Option.getD, pyTruthy, hs, hf, Except.bind, pyFloatCast]
  · intro s hf
    by_cases hs : s = []
    · subst hs; decide
    · unfold houseLivingArea itemDescriptorGetFloat livingAreaPipeline
      simp [Option.getD, pyTruthy, hs, hf, Except.bind, pyFloatCast]
  · intro stored
    rcases descGetFloat_never_none pricePipeline pricePipeline_shape stored with ⟨v, hv, _⟩
    exact ⟨v, hv⟩
  · intro stored
    rcases descGetFloat_never_none livingAreaPipeline livingAreaPipeline_shape stored
      with ⟨v, hv, _⟩
    exact ⟨v, hv⟩

/-- Claim C8: a cached cookie is valid iff its age is strictly below
the configured lifetime and its failure count strictly below the
configured maximum; `get_cookie` returns the cached credential exactly
when the cookie is valid and no refresh is forced, and otherwise
acquires a fresh credential, resets the failure counter to zero, and
persists the new credential with its timestamp. -/
theorem C8_cookie_validity_and_get (maxFC : ℕ) (now : ℤ) (newCk : PyStr)
    (st : CookieManagerState) :
    (∀ d, st.cookie_data = some d →
       (isCookieValid maxFC now st = true ↔
         (now - d.timestamp < st.cookie_lifetime ∧ d.failure_count < maxFC)))
    ∧ (st.cookie_data = Option.none → isCookieValid maxFC now st = false)
    ∧ (∀ d, st.cookie_data = some d → isCookieValid maxFC now st = true →
         getCookie maxFC now newCk false st = ⟨d.cookie_string, st, false, false⟩)
    ∧ (∀ force : Bool, isCookieValid maxFC now st = false ∨ force = true →
         getCookie maxFC now newCk force st =
           ⟨newCk, { st with cookie_data := some ⟨newCk, now, 0, Option.none⟩ },
            true, true⟩) := by
  refine ⟨?_, ?_, ?_, ?_⟩
  · intro d hd
    unfold isCookieValid
    rw [hd]
    dsimp only
    constructor
    · intro h
      by_cases h1 : now - d.timestamp ≥ st.cookie_lifetime
      · rw [if_pos h1] at h; exact absurd h (by simp)
      · rw [if_neg h1] at h
        by_cases h2 : d.failure_count ≥ maxFC
        · rw [if_pos h2] at h; exact absurd h (by simp)
        · exact ⟨by omega, by omega⟩
    · rintro ⟨ha, hb⟩
      rw [if_neg (by omega), if_neg (by omega)]
  · intro hd
    unfold isCookieValid
    rw [hd]
  · intro d hd hvalid
    unfold getCookie
    rw [if_pos (by simp [hvalid]), hd]
  · intro force hcase
    have hcond : ¬ (¬ force = true ∧ isCookieValid maxFC now st = true) := by
      rintro ⟨hf, hv⟩
      rcases hcase with hinv | hforce
      · rw [hinv] at hv; exact absurd hv (by simp)
      · exact hf hforce
    unfold getCookie
    rw [if_neg hcond]

/-- Claim C9: across every sequence of listing batches in a run, each
distinct listing id is handed to the detail pipeline at most once — an
id seen again after registration in `processed_listing_ids` is dropped
— and only ids that actually occur in the feed are handed over. -/
theorem C9_dedup_at_most_once (pages : List (List ℤ)) :
    ((runDetailPipeline [] pages).flatten).Nodup
    ∧ ∀ x ∈ (runDetailPipeline [] pages).flatten, x ∈ pages.flatten :=
  ⟨(runDetailPipeline_spec pages []).1, (runDetailPipeline_spec pages []).2.2⟩

end DRS

namespace DRS

/-- A detail record whose raw `_price` slot is Python `None` (an XPath
miss on the essential field) and whose description was extracted
normally. -/
def C3rec : HouseRec := ⟨some PyVal.none, some (.str (S (r"nice flat")))⟩

/-- Claim C3 (code bug): the PARTIAL_FAIL branch of
`_fetch_and_parse_detail` is unreachable.  The guard
`getattr(house_info, "price") is None` can never hold, because the
`float`-typed `ItemDescriptor` coerces a missing or unparsable price to
`0`/`0.0`, never `None` — so a record missing the essential price field
is stored *unmodified*: no `[PARTIAL_PARSE]` prefix on its description
and no raw-HTML archive, contradicting the claim.  Conjunct 1 is the
unsatisfiability of the guard; conjunct 2 evaluates the pipeline at
the failing input. -/
theorem C3_partial_failure_branch_unreachable :
    (∀ stored : Option PyVal, ∃ v, housePrice stored = .ok v ∧ v ≠ PyVal.none)
    ∧ fetchAndParseDetail 5 (fun _ => some C3rec)
        (some (S (r"<html>673927 without price</html>"))) ⟨0, 0, 0, 0⟩ =
      .ok ⟨.detail C3rec, ⟨0, 0, 0, 0⟩, false, false⟩ :=
  ⟨housePrice_never_none, by decide⟩

/-- A page fetcher whose page-2 request fails with
`PaginationLimitError` while pages 1 and 3 parse normally. -/
def C4fetcher : ℕ → PageFetchOutcome := fun n =>
  if n = 2 then .paginationLimitError else .ok (List.replicate 15 ⟨9⟩)

/-- Claim C4 (code bug): `fetch_page` catches `PaginationLimitError`
and returns `[]` ("to stop pagination gracefully", per its comment),
but `get_house_info_generator` keeps iterating, so later pages are
still fetched.  In a 3-page search whose page-2 fetch hits the
pagination limit, page 3 is requested after the terminal failure —
contradicting "that page and all later pages are abandoned" — while
the earlier page's properties are indeed kept. -/
theorem C4_pages_fetched_after_pagination_limit :
    (get_house_info_generator 1 Option.none
        (.ok ⟨45, List.replicate 15 ⟨7⟩⟩) C4fetcher).fetchedPages = [1, 2, 3]
    ∧ (get_house_info_generator 1 Option.none
        (.ok ⟨45, List.replicate 15 ⟨7⟩⟩) C4fetcher).yielded =
      [List.replicate 15 ⟨7⟩, [], List.replicate 15 ⟨9⟩] := by
  decide

end DRS

namespace DRS

/-! ### Concrete witnesses -/

def C1item : PyDict :=
  [(S (r"id"), .int 1), (S (r"status"), .str (S (r"Available"))),
   (S (r"rent_price"), .int 950)]

def C1db0 : DBState := ⟨[], [], 0⟩

def C1db1 : DBState :=
  match upsert_listing 0 C1item C1db0 with
  | .ok d => d
  | .error _ => C1db0

theorem C1_upsert_idempotent_witness :
    ∃ p, prepareListing C1item = .ok p
      ∧ upsert_listing 1 C1item C1db1 =
          .ok ⟨C1db1.listings.map (fun r =>
                if r.listing_id = p.listing_id then { r with last_seen_at := 1 }
                else r),
               C1db1.snapshots, C1db1.nextSnapshotId⟩
      ∧ (latestSnapshotHash C1db0.snapshots p.listing_id = Option.none →
           C1db1.snapshots = C1db0.snapshots ++
             [⟨p.listing_id, p.row_hash, p.core.status, p.core.price,
               p.core.details_jsonb, p.details, 0, C1db0.nextSnapshotId⟩]) :=
  C1_upsert_idempotent C1item C1db0 C1db1 0 1 (by simp [C1db0]) (by decide)

def C2item : PyDict :=
  [(S (r"id"), .int 3), (S (r"status"), .str (S (r"Rented"))),
   (S (r"rent_price"), .int 1200), (S (r"address_city"), .str (S (r"leiden")))]

def C2p : PreparedListing :=
  match prepareListing C2item with
  | .ok p => p
  | .error _ => ⟨.none, [], ⟨.none, .none, []⟩, [], []⟩

theorem C2_upsert_change_witness :
    ∃ db', upsert_listing 0 C2item ⟨[], [], 0⟩ = .ok db'
      ∧ db'.snapshots = ([] : List SnapshotRow) ++
          [⟨C2p.listing_id, C2p.row_hash, C2p.core.status, C2p.core.price,
            C2p.core.details_jsonb, C2p.details, 0, 0⟩]
      ∧ db'.nextSnapshotId = 0 + 1
      ∧ (∃ r ∈ db'.listings, r.listing_id = C2p.listing_id
           ∧ r.current_snapshot_id = some 0
           ∧ r.last_seen_at = 0)
      ∧ ((∀ r ∈ ([] : List ListingRow), r.listing_id ≠ C2p.listing_id) →
           (⟨C2p.listing_id, C2p.static_data, 0, some 0⟩ : ListingRow)
             ∈ db'.listings) :=
  C2_upsert_change 0 C2item ⟨[], [], 0⟩ C2p (by decide) (by decide)

theorem C5_captcha_ip_block_witness :
    fetchAndParseDetail 5 (fun _ => Option.none) (some captchaMarker) ⟨0, 0, 0, 0⟩ =
      .ok ⟨.nothing, ⟨1, 0, 0, 1⟩, true, true⟩
    ∧ fetchAndParseDetail 5 (fun _ => Option.none) (some captchaMarker) ⟨0, 0, 0, 5⟩ =
      .error .cookieUpdateLimitReached :=
  ⟨(C5_captcha_ip_block 5 (fun _ => Option.none) captchaMarker ⟨0, 0, 0, 0⟩
      (by decide)).1 (by decide),
   (C5_captcha_ip_block 5 (fun _ => Option.none) captchaMarker ⟨0, 0, 0, 5⟩
      (by decide)).2.1 (by decide)⟩

def C6fp : FirstPageResult := ⟨20, List.replicate 15 ⟨7⟩⟩

def C6fetcher : ℕ → PageFetchOutcome := fun n =>
  if n = 2 then .ok (List.replicate 5 ⟨8⟩) else .otherError

theorem C6_two_page_scenario_witness :
    (get_house_info_generator 1 Option.none (.ok C6fp) C6fetcher).fetchedPages = [1, 2]
    ∧ ((get_house_info_generator 1 Option.none (.ok C6fp) C6fetcher).yielded.map
        List.length).sum = 20
    ∧ ∀ n ∈ (get_house_info_generator 1 Option.none (.ok C6fp) C6fetcher).fetchedPages,
        n ≤ (C6fp.total_value + 14) / 15 :=
  C6_two_page_scenario C6fp C6fetcher (List.replicate 5 ⟨8⟩)
    (by decide) (by decide) (by decide) (by decide)

theorem C7_numeric_cleaning_witness :
    housePrice (some (.str (S (r"abc")))) = .ok (.float 0)
    ∧ houseLivingArea (some (.str (S (r"x")))) = .ok (.float 0) :=
  ⟨C7_numeric_cleaning.2.2.2.1 (S (r"abc")) (by decide),
   C7_numeric_cleaning.2.2.2.2.1 (S (r"x")) (by decide)⟩

def C8st : CookieManagerState := ⟨7200, some ⟨S (r"ck"), 100, 1, Option.none⟩⟩

theorem C8_cookie_witness :
    (isCookieValid 3 200 C8st = true ↔ ((200 : ℤ) - 100 < 7200 ∧ 1 < 3))
    ∧ getCookie 3 200 (S (r"new")) false C8st = ⟨S (r"ck"), C8st, false, false⟩
    ∧ getCookie 3 9999 (S (r"new")) false C8st =
        ⟨S (r"new"), ⟨7200, some ⟨S (r"new"), 9999, 0, Option.none⟩⟩, true, true⟩ :=
  ⟨(C8_cookie_validity_and_get 3 200 (S (r"new")) C8st).1 _ rfl,
   (C8_cookie_validity_and_get 3 200 (S (r"new")) C8st).2.2.1 _ rfl (by decide),
   (C8_cookie_validity_and_get 3 9999 (S (r"new")) C8st).2.2.2 false
     (Or.inl (by decide))⟩

def C10item : PyDict :=
  [(S (r"id"), .int 2), (S (r"status"), .str (S (r"Available"))),
   (S (r"rent_price"), .int 800), (S (r"description"), .str (S (r"ab")))]

def C10p : PreparedListing :=
  match prepareListing C10item with
  | .ok p => p
  | .error _ => ⟨.none, [], ⟨.none, .none, []⟩, [], []⟩

theorem C10_description_roundtrip_witness :
    ∃ db' snap, upsert_listing 0 C10item ⟨[], [], 0⟩ = .ok db'
      ∧ db'.snapshots = ([] : List SnapshotRow) ++ [snap]
      ∧ dictGet snap.details (S (r"description")) =
          some (.str (base64Encode (zlibCompress (utf8Encode (S (r"ab"))))))
      ∧ dictGet snap.details (S (r"description_is_compressed")) = some (.bool true)
      ∧ base64Decode (base64Encode (zlibCompress (utf8Encode (S (r"ab"))))) =
          some (zlibCompress (utf8Encode (S (r"ab"))))
      ∧ zlibDecompress (zlibCompress (utf8Encode (S (r"ab")))) =
          some (utf8Encode (S (r"ab"))) :=
  C10_description_compressed_roundtrip 0 C10item ⟨[], [], 0⟩ C10p (S (r"ab"))
    (by decide) (by decide) (by decide) (by decide)

end DRS
